import Mathlib

/-!
Shallow embedding of `neuron_explainer/api_client.py`:
the error classifier `is_api_error`, the `exponential_backoff` retry
decorator, and `ApiClient.make_request` (cache lookup, concurrency gate,
endpoint routing, model injection, cache store).

Machine reals (Python floats) are modelled as rationals; the delays and
jitter bounds in the claims are exact at the modelled values.  The random
draw `random.uniform(a, b)` is modelled as `a + (b - a) * t` for an oracle
`t` in `[0, 1]` supplied per attempt.  Network interaction is modelled by
an oracle giving each dispatched request its outcome, and the observable
behaviour of one call is a trace of events (cache lookup, gate acquire and
release, HTTP post, cache store, backoff sleep).
-/

set_option autoImplicit false

/-- JSON values as produced and consumed by the client (payloads, error
bodies).  Mirrors the dict/list/str/int/bool/None values that Python
passes to `orjson.dumps` and receives from `response.json()`. -/
inductive JsonValue where
  | str (s : String)
  | num (n : Int)
  | bool (b : Bool)
  | null
  | arr (xs : List JsonValue)
  | obj (fields : List (String × JsonValue))

/-- Hex digit character used by the JSON string escaper, lowercase. -/
def hexDigit (n : Nat) : Char :=
  if n < 10 then Char.ofNat (48 + n) else Char.ofNat (97 + (n - 10))

/-- JSON escaping of one character, as a JSON serializer such as `orjson`
performs it: quote and backslash are escaped, control characters get the
short escapes or a `\u00XX` escape, everything else is passed through. -/
def escChar (c : Char) : List Char :=
  if c = '"' then ['\\', '"']
  else if c = '\\' then ['\\', '\\']
  else if c = Char.ofNat 8 then ['\\', 'b']
  else if c = Char.ofNat 9 then ['\\', 't']
  else if c = Char.ofNat 10 then ['\\', 'n']
  else if c = Char.ofNat 12 then ['\\', 'f']
  else if c = Char.ofNat 13 then ['\\', 'r']
  else if c.toNat < 32 then
    ['\\', 'u', '0', '0', hexDigit (c.toNat / 16), hexDigit (c.toNat % 16)]
  else [c]

/-- JSON escaping of a character sequence. -/
def escapeChars : List Char → List Char
  | [] => []
  | c :: rest => escChar c ++ escapeChars rest

/-- Serialized form of a JSON string, quotes included. -/
def dumpString (s : String) : List Char :=
  '"' :: escapeChars s.data ++ ['"']

mutual

/-- Canonical serialization of a JSON value, mirroring `orjson.dumps`:
no whitespace, fields in insertion order (orjson does not sort keys). -/
def dumps : JsonValue → List Char
  | .str s => dumpString s
  | .num n => (toString n).data
  | .bool b => if b then "true".data else "false".data
  | .null => "null".data
  | .arr xs => '[' :: dumpsArr xs ++ [']']
  | .obj fs => '{' :: dumpsObj fs ++ ['}']

/-- Comma-separated serialization of array elements. -/
def dumpsArr : List JsonValue → List Char
  | [] => []
  | [x] => dumps x
  | x :: y :: rest => dumps x ++ ',' :: dumpsArr (y :: rest)

/-- Comma-separated serialization of object fields, insertion order. -/
def dumpsObj : List (String × JsonValue) → List Char
  | [] => []
  | [(k, v)] => dumpString k ++ ':' :: dumps v
  | (k, v) :: p :: rest => dumpString k ++ ':' :: dumps v ++ ',' :: dumpsObj (p :: rest)

end

/-- Serialized form of a single `key: value` object member. -/
def dumpsPair (k : String) (v : JsonValue) : List Char :=
  dumpString k ++ ':' :: dumps v

theorem dumpsObj_nil : dumpsObj [] = [] := by simp [dumpsObj]

theorem dumpsObj_single (k : String) (v : JsonValue) :
    dumpsObj [(k, v)] = dumpsPair k v := by simp [dumpsObj, dumpsPair]

theorem dumpsObj_cons₂ (k : String) (v : JsonValue) (p : String × JsonValue)
    (rest : List (String × JsonValue)) :
    dumpsObj ((k, v) :: p :: rest) = dumpsPair k v ++ ',' :: dumpsObj (p :: rest) := by
  simp [dumpsObj, dumpsPair]

/-- Inverse of the JSON character escaper, on escape shorthands. -/
def unescChar (c : Char) : Char :=
  if c = 'b' then Char.ofNat 8
  else if c = 't' then Char.ofNat 9
  else if c = 'n' then Char.ofNat 10
  else if c = 'f' then Char.ofNat 12
  else if c = 'r' then Char.ofNat 13
  else c

/-- Value of a lowercase hex digit character. -/
def hexVal (c : Char) : Nat :=
  if 97 ≤ c.toNat then c.toNat - 97 + 10 else c.toNat - 48

/-- Left inverse of `escapeChars`, used to show the serializer does not
identify distinct strings. -/
def unescape : List Char → List Char
  | [] => []
  | c :: rest =>
    if c = '\\' then
      match rest with
      | [] => []
      | d :: rest2 =>
        if d = 'u' then
          match rest2 with
          | _ :: _ :: h :: l :: rest3 => Char.ofNat (hexVal h * 16 + hexVal l) :: unescape rest3
          | _ => []
        else unescChar d :: unescape rest2
    else c :: unescape rest

theorem hexVal_hexDigit (n : Nat) (h : n < 16) : hexVal (hexDigit n) = n := by
  interval_cases n <;> decide

theorem unescape_cons_ne (c : Char) (rest : List Char) (h : ¬c = '\\') :
    unescape (c :: rest) = c :: unescape rest := by
  rw [unescape.eq_def]; simp [h]

theorem unescape_short (d : Char) (rest : List Char) (h : ¬d = 'u') :
    unescape ('\\' :: d :: rest) = unescChar d :: unescape rest := by
  rw [unescape.eq_def]; simp [h]

theorem unescape_hex (h l : Char) (rest : List Char) :
    unescape ('\\' :: 'u' :: '0' :: '0' :: h :: l :: rest) =
      Char.ofNat (hexVal h * 16 + hexVal l) :: unescape rest := by
  rw [unescape.eq_def]; simp

theorem unescape_escChar (c : Char) (rest : List Char) :
    unescape (escChar c ++ rest) = c :: unescape rest := by
  by_cases h1 : c = '"'
  · subst h1
    rw [show escChar '"' = ['\\', '"'] from rfl, List.cons_append, List.cons_append,
      List.nil_append, unescape_short _ _ (by decide)]
    rfl
  by_cases h2 : c = '\\'
  · subst h2
    rw [show escChar '\\' = ['\\', '\\'] from rfl, List.cons_append, List.cons_append,
      List.nil_append, unescape_short _ _ (by decide)]
    rfl
  by_cases h3 : c = Char.ofNat 8
  · subst h3
    rw [show escChar (Char.ofNat 8) = ['\\', 'b'] from rfl, List.cons_append,
      List.cons_append, List.nil_append, unescape_short _ _ (by decide)]
    rfl
  by_cases h4 : c = Char.ofNat 9
  · subst h4
    rw [show escChar (Char.ofNat 9) = ['\\', 't'] from rfl, List.cons_append,
      List.cons_append, List.nil_append, unescape_short _ _ (by decide)]
    rfl
  by_cases h5 : c = Char.ofNat 10
  · subst h5
    rw [show escChar (Char.ofNat 10) = ['\\', 'n'] from rfl, List.cons_append,
      List.cons_append, List.nil_append, unescape_short _ _ (by decide)]
    rfl
  by_cases h6 : c = Char.ofNat 12
  · subst h6
    rw [show escChar (Char.ofNat 12) = ['\\', 'f'] from rfl, List.cons_append,
      List.cons_append, List.nil_append, unescape_short _ _ (by decide)]
    rfl
  by_cases h7 : c = Char.ofNat 13
  · subst h7
    rw [show escChar (Char.ofNat 13) = ['\\', 'r'] from rfl, List.cons_append,
      List.cons_append, List.nil_append, unescape_short _ _ (by decide)]
    rfl
  by_cases h8 : c.toNat < 32
  · have hchar : escChar c =
        ['\\', 'u', '0', '0', hexDigit (c.toNat / 16), hexDigit (c.toNat % 16)] := by
      simp [escChar, h1, h2, h3, h4, h5, h6, h7, h8]
    rw [hchar]
    simp only [List.cons_append, List.nil_append]
    rw [unescape_hex]
    rw [hexVal_hexDigit _ (by omega), hexVal_hexDigit _ (Nat.mod_lt _ (by omega))]
    rw [show c.toNat / 16 * 16 + c.toNat % 16 = c.toNat by omega]
    rw [Char.ofNat_toNat]
  · have hchar : escChar c = [c] := by
      simp [escChar, h1, h2, h3, h4, h5, h6, h7, h8]
    rw [hchar, List.singleton_append, unescape_cons_ne _ _ h2]

theorem unescape_escapeChars (l : List Char) : unescape (escapeChars l) = l := by
  induction l with
  | nil => simp [escapeChars, unescape]
  | cons c rest ih => rw [escapeChars, unescape_escChar, ih]

theorem escapeChars_injective (a b : List Char) (h : escapeChars a = escapeChars b) :
    a = b := by
  have := congrArg unescape h
  rwa [unescape_escapeChars, unescape_escapeChars] at this

theorem dumpString_injective (a b : String) (h : dumpString a = dumpString b) : a = b := by
  apply String.ext
  apply escapeChars_injective
  have h2 := List.cons_injective h
  exact List.append_cancel_right h2

/-- Python dict lookup on an association list (first matching key). -/
def assocLookup {κ α : Type} [DecidableEq κ] : List (κ × α) → κ → Option α
  | [], _ => none
  | (k, v) :: rest, key => if k = key then some v else assocLookup rest key

/-- Python dict assignment `d[key] = val`: replaces the value in place if
the key is present (keeping its position), else appends the pair. -/
def assocSet {κ α : Type} [DecidableEq κ] : List (κ × α) → κ → α → List (κ × α)
  | [], key, val => [(key, val)]
  | (k, v) :: rest, key, val =>
    if k = key then (key, val) :: rest else (k, v) :: assocSet rest key val

/-- Python `key in d`. -/
def hasKey {κ α : Type} [DecidableEq κ] (m : List (κ × α)) (key : κ) : Bool :=
  (assocLookup m key).isSome

theorem assocLookup_assocSet_self {κ α : Type} [DecidableEq κ]
    (m : List (κ × α)) (key : κ) (val : α) :
    assocLookup (assocSet m key val) key = some val := by
  induction m with
  | nil => simp [assocSet, assocLookup]
  | cons p rest ih =>
    obtain ⟨k, v⟩ := p
    by_cases h : k = key
    · subst h; simp [assocSet, assocLookup]
    · simp [assocSet, assocLookup, h, ih]

theorem assocSet_append_notin {κ α : Type} [DecidableEq κ]
    (pre post : List (κ × α)) (key : κ) (v0 val : α)
    (h : hasKey pre key = false) :
    assocSet (pre ++ (key, v0) :: post) key val = pre ++ (key, val) :: post := by
  induction pre with
  | nil => simp [assocSet]
  | cons p rest ih =>
    obtain ⟨k, v⟩ := p
    simp only [hasKey, assocLookup] at h
    by_cases hk : k = key
    · simp [hk] at h
    · simp only [List.cons_append, assocSet, hk, if_false, List.cons.injEq, true_and]
      exact ih (by simpa [hasKey, hk] using h)

/-- Exceptions that can reach the retry loop or the caller, mirroring the
exception classes the Python code distinguishes:
`httpx.HTTPStatusError` (carrying the response status and its body, which
may fail to parse as JSON), `httpx.ConnectError`, `httpx.TimeoutException`,
`httpx.ReadError`, the `JSONDecodeError` raised by `response.json()`, the
`AttributeError` raised by `.get` on a non-dict, and anything else. -/
inductive PyErr where
  | httpStatus (status : Nat) (body : Except Unit JsonValue)
  | connectError
  | timeout
  | readError
  | jsonDecodeError
  | attrError
  | otherError (msg : String)

/-- `error_data.get("type") == "idempotency_error"`: in Python this
comparison is true exactly when the value is that string. -/
def isIdempotencyType : Option JsonValue → Bool
  | some (.str s) => s == "idempotency_error"
  | _ => false

/-- `is_api_error` from `api_client.py`.  For an `httpx.HTTPStatusError`
it parses the response body (`response.json()` can itself raise, modelled
as `Except.error`), reads `error.type`, and for status 400, 404 or 415 is
retryable only on the idempotency marker; every other classified or
unclassified exception is retryable.  `.get("message")` on a non-dict
`error` value raises `AttributeError` before the status is examined. -/
def is_api_error (err : PyErr) : Except PyErr Bool :=
  match err with
  | .httpStatus status body =>
    match body with
    | .error _ => .error .jsonDecodeError
    | .ok (.obj fields) =>
      match (assocLookup fields "error").getD (.obj []) with
      | .obj ef =>
        if status = 400 ∨ status = 404 ∨ status = 415 then
          .ok (isIdempotencyType (assocLookup ef "type"))
        else .ok true
      | _ => .error .attrError
    | .ok _ => .error .attrError
  | .connectError => .ok true
  | .timeout => .ok true
  | .readError => .ok true
  | .jsonDecodeError => .ok true
  | .attrError => .ok true
  | .otherError _ => .ok true

/-- `error.type` of a parsed error body, when present and well shaped. -/
def errorTypeOf (fields : List (String × JsonValue)) : Option JsonValue :=
  match assocLookup fields "error" with
  | some (.obj ef) => assocLookup ef "type"
  | _ => none

/-- The response body shape the rule table of the spec presupposes: the
`error` field, when present, is an object. -/
def bodyWellFormed (fields : List (String × JsonValue)) : Prop :=
  assocLookup fields "error" = none ∨
    ∃ ef, assocLookup fields "error" = some (JsonValue.obj ef)

/-- Observable steps of one `make_request` call. -/
inductive Event where
  | cacheLookup (key : List Char) (hit : Bool)
  | acquire
  | post (url : String) (body : List (String × JsonValue))
  | release
  | cacheStore (key : List Char)
  | sleep (t : ℚ)

/-- Fixed retry policy constants of `exponential_backoff`. -/
def init_delay_s : ℚ := 1

def max_delay_s : ℚ := 10

def max_tries : Nat := 200

def backoff_multiplier : ℚ := 2

def jitter : ℚ := 1 / 5

/-- `random.uniform(a, b)` drawn with oracle `t` in `[0, 1]`. -/
def pyUniform (a b t : ℚ) : ℚ := a + (b - a) * t

/-- Outcome of one run of the retried function: the final result (`none`
only on the unreachable fall-through of the loop), how many times the
wrapped function was invoked, the backoff sleeps in order, and the full
event trace. -/
structure RetryOut (ε α : Type) where
  result : Option (Except ε α)
  calls : Nat
  sleeps : List ℚ
  events : List Event

/-- The loop body of `f_retry` in `exponential_backoff`, from attempt `i`
with current delay `d`; `fuel` is the remaining number of loop iterations
(the loop runs `for i in range(max_tries)`, so it starts as
`max_tries - i`).  On an exception the classifier `cls` runs first (it can
itself raise); the attempt result is final if the verdict is fatal or
`i == max_tries - 1`, otherwise the task sleeps
`uniform(d * (1 - jitter), d * (1 + jitter))` and the delay becomes
`min(d * backoff_multiplier, max_delay_s)`. -/
def retryFrom {ε α : Type} (f : Nat → Except ε α × List Event)
    (cls : ε → Except ε Bool) (u : Nat → ℚ) (fuel i : Nat) (d : ℚ) : RetryOut ε α :=
  match fuel with
  | 0 => ⟨none, 0, [], []⟩
  | fuel' + 1 =>
    match (f i).1 with
    | .ok v => ⟨some (.ok v), 1, [], (f i).2⟩
    | .error err =>
      match cls err with
      | .error err2 => ⟨some (.error err2), 1, [], (f i).2⟩
      | .ok b =>
        if !b || (i == max_tries - 1) then ⟨some (.error err), 1, [], (f i).2⟩
        else
          let s := pyUniform (d * (1 - jitter)) (d * (1 + jitter)) (u i)
          let rest := retryFrom f cls u fuel' (i + 1) (min (d * backoff_multiplier) max_delay_s)
          ⟨rest.result, rest.calls + 1, s :: rest.sleeps, (f i).2 ++ .sleep s :: rest.events⟩

/-- A full run of a function wrapped by `exponential_backoff(retry_on=cls)`. -/
def retryLoop {ε α : Type} (f : Nat → Except ε α × List Event)
    (cls : ε → Except ε Bool) (u : Nat → ℚ) : RetryOut ε α :=
  retryFrom f cls u max_tries 0 init_delay_s

theorem retryFrom_succ {ε α : Type} (f : Nat → Except ε α × List Event)
    (cls : ε → Except ε Bool) (u : Nat → ℚ) (fuel i : Nat) (d : ℚ) :
    retryFrom f cls u (fuel + 1) i d =
      match (f i).1 with
      | .ok v => ⟨some (.ok v), 1, [], (f i).2⟩
      | .error err =>
        match cls err with
        | .error err2 => ⟨some (.error err2), 1, [], (f i).2⟩
        | .ok b =>
          if !b || (i == max_tries - 1) then ⟨some (.error err), 1, [], (f i).2⟩
          else
            let s := pyUniform (d * (1 - jitter)) (d * (1 + jitter)) (u i)
            let rest := retryFrom f cls u fuel (i + 1) (min (d * backoff_multiplier) max_delay_s)
            ⟨rest.result, rest.calls + 1, s :: rest.sleeps, (f i).2 ++ .sleep s :: rest.events⟩ := by
  rw [retryFrom]

/-- The deterministic delay state of the loop: the value of `delay_s` just
before the `k`-th sleep, starting from `d`. -/
def delaySeq (d : ℚ) : Nat → ℚ
  | 0 => d
  | k + 1 => min (delaySeq d k * backoff_multiplier) max_delay_s

theorem delaySeq_shift (d : ℚ) (k : Nat) :
    delaySeq d (k + 1) = delaySeq (min (d * backoff_multiplier) max_delay_s) k := by
  induction k with
  | zero => simp [delaySeq]
  | succ k ih => rw [delaySeq, ih, delaySeq]

theorem delaySeq_one (k : Nat) : delaySeq init_delay_s k = min ((2 : ℚ) ^ k) 10 := by
  induction k with
  | zero => simp [delaySeq, init_delay_s]
  | succ k ih =>
    rw [delaySeq, ih, pow_succ, backoff_multiplier, max_delay_s]
    rcases le_total ((2 : ℚ) ^ k) 10 with h | h
    · rw [min_eq_left h]
    · rw [min_eq_right h, min_eq_right (by linarith), min_eq_right (by nlinarith)]

/-- The jittered sleep before the retry that follows the `k`-th failing
attempt counted from delay state `d` at attempt index `i`. -/
def jsleep (d : ℚ) (u : Nat → ℚ) (i k : Nat) : ℚ :=
  pyUniform (delaySeq d k * (1 - jitter)) (delaySeq d k * (1 + jitter)) (u (i + k))

theorem jsleep_shift (d : ℚ) (u : Nat → ℚ) (i k : Nat) :
    jsleep d u i (k + 1) = jsleep (min (d * backoff_multiplier) max_delay_s) u (i + 1) k := by
  rw [jsleep, jsleep, delaySeq_shift]
  have harg : i + (k + 1) = i + 1 + k := by omega
  rw [harg]

theorem jsleep_map_shift (d : ℚ) (u : Nat → ℚ) (i m : Nat) :
    List.map (jsleep (min (d * backoff_multiplier) max_delay_s) u (i + 1)) (List.range m)
      = List.map (jsleep d u i ∘ Nat.succ) (List.range m) := by
  apply List.map_congr_left
  intro k _
  simp only [Function.comp_apply, Nat.succ_eq_add_one]
  rw [jsleep_shift]

/-- Behaviour of the loop under a persistently transient failure: every
iteration consumes one attempt, sleeps once (except the last), and the
final raise carries the error of attempt `max_tries - 1` itself. -/
theorem retryFrom_allFail {ε α : Type} (f : Nat → Except ε α × List Event)
    (cls : ε → Except ε Bool) (u : Nat → ℚ) (e : Nat → ε)
    (hf : ∀ j, (f j).1 = .error (e j)) (hcls : ∀ j, cls (e j) = .ok true) :
    ∀ fuel i d, 0 < fuel → i + fuel = max_tries →
      (retryFrom f cls u fuel i d).result = some (.error (e (max_tries - 1))) ∧
      (retryFrom f cls u fuel i d).calls = fuel ∧
      (retryFrom f cls u fuel i d).sleeps = (List.range (fuel - 1)).map (jsleep d u i) := by
  intro fuel
  induction fuel with
  | zero => intro i d h0 _; omega
  | succ fuel' ih =>
    intro i d _ hsum
    rw [retryFrom_succ, hf i]
    simp only [hcls i]
    rcases Nat.eq_zero_or_pos fuel' with hz | hpos
    · subst hz
      have hi : i = max_tries - 1 := by omega
      simp [hi]
    · have hi : ¬ (i = max_tries - 1) := by omega
      have hcond : (!true || (i == max_tries - 1)) = false := by
        simp [Nat.beq_eq_true_eq, hi]
      simp only [hcond, Bool.false_eq_true, if_false]
      obtain ⟨hr, hc, hs⟩ := ih (i + 1) (min (d * backoff_multiplier) max_delay_s)
        hpos (by omega)
      refine ⟨hr, by simpa using hc, ?_⟩
      simp only [hs]
      obtain ⟨m, hm⟩ : ∃ m, fuel' = m + 1 := ⟨fuel' - 1, by omega⟩
      subst hm
      simp only [Nat.add_sub_cancel]
      rw [List.range_succ_eq_map, List.map_cons, List.map_map, jsleep_map_shift]
      congr 1

/-- Outcome of one network round trip, supplied by an oracle: an HTTP
response with a status and a body (which may fail to parse as JSON), or a
transport-level exception from `httpx`. -/
inductive NetResult where
  | resp (status : Nat) (body : Except Unit JsonValue)
  | connectError
  | timeout
  | readError

/-- `ApiClient` construction-time state.  `has_gate` records whether
`max_concurrent` was set (the semaphore exists), `cache` is `some` map
exactly when caching is enabled.  Headers and timeouts carry no claim and
are not modelled. -/
structure Client where
  model_name : String
  has_gate : Bool
  cache : Option (List (List Char × JsonValue))
  base_api_url : String

/-- Result of one invocation of the `make_request` body: the value
returned or exception raised, the client state after it (the cache may
have been written), and the events it emitted. -/
structure AttemptOut where
  result : Except PyErr JsonValue
  client : Client
  events : List Event

/-- The endpoint chosen from the payload shape: `/chat/completions` when
the payload has a `messages` field, else `/completions`. -/
def endpointUrl (c : Client) (kw : List (String × JsonValue)) : String :=
  c.base_api_url ++ (if hasKey kw "messages" then "/chat/completions" else "/completions")

/-- The JSON body actually posted: the payload after
`kwargs["model"] = self.model_name` and, in JSON mode,
`kwargs["response_format"] = {"type": "json_object"}`. -/
def requestBody (c : Client) (json_mode : Bool) (kw : List (String × JsonValue)) :
    List (String × JsonValue) :=
  let kw1 := assocSet kw "model" (.str c.model_name)
  if json_mode then assocSet kw1 "response_format" (.obj [("type", .str "json_object")])
  else kw1

/-- The concurrency-gated dispatch inside the `AsyncExitStack`: acquire a
slot when the gate exists, post, release on exit of the stack whatever
happened, then `raise_for_status` (any non-2xx status raises
`HTTPStatusError` carrying the response) and `response.json()`; on a 2xx
response with parseable body, store it in the cache when caching is on. -/
def dispatch (c : Client) (net : String → List (String × JsonValue) → NetResult)
    (json_mode : Bool) (kw : List (String × JsonValue)) : AttemptOut :=
  let url := endpointUrl c kw
  let body := requestBody c json_mode kw
  let evs := (if c.has_gate then [Event.acquire] else []) ++
    Event.post url body :: (if c.has_gate then [Event.release] else [])
  match net url body with
  | .connectError => ⟨.error .connectError, c, evs⟩
  | .timeout => ⟨.error .timeout, c, evs⟩
  | .readError => ⟨.error .readError, c, evs⟩
  | .resp status b =>
    if 200 ≤ status ∧ status < 300 then
      match b with
      | .error _ => ⟨.error .jsonDecodeError, c, evs⟩
      | .ok j =>
        match c.cache with
        | some m =>
          ⟨.ok j, { c with cache := some (assocSet m (dumps (.obj kw)) j) },
            evs ++ [Event.cacheStore (dumps (.obj kw))]⟩
        | none => ⟨.ok j, c, evs⟩
    else ⟨.error (.httpStatus status b), c, evs⟩

/-- One invocation of the `make_request` body: when caching is enabled the
key `orjson.dumps(kwargs)` is computed from the payload as supplied (the
model name and the JSON-mode field are injected later, inside dispatch),
and a hit returns the cached value before any gate or network activity. -/
def makeRequestAttempt (c : Client) (net : String → List (String × JsonValue) → NetResult)
    (json_mode : Bool) (kw : List (String × JsonValue)) : AttemptOut :=
  match c.cache with
  | some m =>
    let key := dumps (.obj kw)
    match assocLookup m key with
    | some v => ⟨.ok v, c, [Event.cacheLookup key true]⟩
    | none =>
      let d := dispatch c net json_mode kw
      ⟨d.result, d.client, Event.cacheLookup key false :: d.events⟩
  | none => dispatch c net json_mode kw

/-- A full `make_request` call: the body, rebuilt from the same arguments
on every attempt (Python repacks `kwargs` afresh at each call), run under
`exponential_backoff(retry_on=is_api_error)`.  The network oracle may
answer differently on different attempt indices.  On success the value is
paired with the client state after the successful attempt (failing
attempts do not modify the client). -/
def makeRequest (c : Client) (net : Nat → String → List (String × JsonValue) → NetResult)
    (u : Nat → ℚ) (json_mode : Bool) (kw : List (String × JsonValue)) :
    RetryOut PyErr (JsonValue × Client) :=
  retryLoop (fun i =>
    let a := makeRequestAttempt c (net i) json_mode kw
    (match a.result with
     | .ok v => .ok (v, a.client)
     | .error err => .error err, a.events))
    is_api_error u

/-- Well-shaped event trace for a gated client: a sequence of cache and
sleep events and complete `acquire, post, release` triples; a bare
`acquire`, `release` or `post` outside such a triple is rejected. -/
def gatedOk : List Event → Bool
  | [] => true
  | .acquire :: .post _ _ :: .release :: rest => gatedOk rest
  | .cacheLookup _ _ :: rest => gatedOk rest
  | .cacheStore _ :: rest => gatedOk rest
  | .sleep _ :: rest => gatedOk rest
  | _ => false

theorem retryLoop_first_ok {ε α : Type} (f : Nat → Except ε α × List Event)
    (cls : ε → Except ε Bool) (u : Nat → ℚ) (x : α) (h : (f 0).1 = .ok x) :
    retryLoop f cls u = ⟨some (.ok x), 1, [], (f 0).2⟩ := by
  rw [retryLoop, show max_tries = 199 + 1 from rfl, retryFrom_succ, h]

theorem retryFrom_ok_source {ε α : Type} (f : Nat → Except ε α × List Event)
    (cls : ε → Except ε Bool) (u : Nat → ℚ) (x : α) :
    ∀ fuel i d, (retryFrom f cls u fuel i d).result = some (.ok x) →
      ∃ j, (f j).1 = .ok x := by
  intro fuel
  induction fuel with
  | zero => intro i d h; simp [retryFrom] at h
  | succ fuel' ih =>
    intro i d h
    rw [retryFrom_succ] at h
    cases hfi : (f i).1 with
    | ok v =>
      simp only [hfi] at h
      simp only [Option.some.injEq, Except.ok.injEq] at h
      exact ⟨i, by rw [hfi, h]⟩
    | error err =>
      cases hcls : cls err with
      | error err2 =>
        simp only [hfi, hcls] at h
        simp at h
      | ok b =>
        simp only [hfi, hcls] at h
        by_cases hcond : (!b || (i == max_tries - 1)) = true
        · rw [if_pos hcond] at h
          simp at h
        · rw [if_neg hcond] at h
          exact ih _ _ h

theorem retryFrom_event_source {ε α : Type} (f : Nat → Except ε α × List Event)
    (cls : ε → Except ε Bool) (u : Nat → ℚ) (ev : Event) :
    ∀ fuel i d, ev ∈ (retryFrom f cls u fuel i d).events →
      (∃ j, ev ∈ (f j).2) ∨ ∃ t, ev = .sleep t := by
  intro fuel
  induction fuel with
  | zero => intro i d h; simp [retryFrom] at h
  | succ fuel' ih =>
    intro i d h
    rw [retryFrom_succ] at h
    cases hfi : (f i).1 with
    | ok v =>
      simp only [hfi] at h
      exact Or.inl ⟨i, h⟩
    | error err =>
      cases hcls : cls err with
      | error err2 =>
        simp only [hfi, hcls] at h
        exact Or.inl ⟨i, h⟩
      | ok b =>
        simp only [hfi, hcls] at h
        by_cases hcond : (!b || (i == max_tries - 1)) = true
        · rw [if_pos hcond] at h
          exact Or.inl ⟨i, h⟩
        · rw [if_neg hcond] at h
          simp only [List.mem_append, List.mem_cons] at h
          rcases h with h | h | h
          · exact Or.inl ⟨i, h⟩
          · exact Or.inr ⟨_, h⟩
          · exact ih _ _ h

theorem gatedOk_cacheLookup (k : List Char) (h : Bool) (rest : List Event) :
    gatedOk (.cacheLookup k h :: rest) = gatedOk rest := rfl

theorem gatedOk_cacheStore (k : List Char) (rest : List Event) :
    gatedOk (.cacheStore k :: rest) = gatedOk rest := rfl

theorem gatedOk_sleep (t : ℚ) (rest : List Event) :
    gatedOk (.sleep t :: rest) = gatedOk rest := rfl

theorem gatedOk_triple (url : String) (b : List (String × JsonValue)) (rest : List Event) :
    gatedOk (.acquire :: .post url b :: .release :: rest) = gatedOk rest := rfl

/-- The events of one gated dispatch are a complete acquire, post,
release triple, followed by at most a cache store. -/
theorem dispatch_events_gated (c : Client) (net : String → List (String × JsonValue) → NetResult)
    (jm : Bool) (kw : List (String × JsonValue)) (hg : c.has_gate = true) :
    ∃ tail, (dispatch c net jm kw).events =
        Event.acquire :: Event.post (endpointUrl c kw) (requestBody c jm kw) ::
          Event.release :: tail ∧
      (tail = [] ∨ ∃ k, tail = [Event.cacheStore k]) := by
  rcases hnet : net (endpointUrl c kw) (requestBody c jm kw) with ⟨status, b⟩ | _ | _ | _
  · by_cases hst : 200 ≤ status ∧ status < 300
    · rcases b with e | j
      · refine ⟨[], ?_, Or.inl rfl⟩
        simp [dispatch, hnet, hg, hst]
      · rcases hc : c.cache with _ | m
        · refine ⟨[], ?_, Or.inl rfl⟩
          simp [dispatch, hnet, hg, hst, hc]
        · refine ⟨[Event.cacheStore (dumps (.obj kw))], ?_, Or.inr ⟨_, rfl⟩⟩
          simp [dispatch, hnet, hg, hst, hc]
    · refine ⟨[], ?_, Or.inl rfl⟩
      simp [dispatch, hnet, hg, hst]
  all_goals refine ⟨[], ?_, Or.inl rfl⟩
  all_goals simp [dispatch, hnet, hg]

/-- One gated attempt contributes a well-shaped chunk to the trace. -/
theorem gatedOk_append_attempt (c : Client)
    (net : String → List (String × JsonValue) → NetResult) (jm : Bool)
    (kw : List (String × JsonValue)) (rest : List Event) (hg : c.has_gate = true) :
    gatedOk ((makeRequestAttempt c net jm kw).events ++ rest) = gatedOk rest := by
  obtain ⟨tail, htail, hshape⟩ := dispatch_events_gated c net jm kw hg
  have hdisp : gatedOk ((dispatch c net jm kw).events ++ rest) = gatedOk rest := by
    rw [htail]
    simp only [List.cons_append]
    rw [gatedOk_triple]
    rcases hshape with h0 | ⟨k, hk⟩
    · rw [h0]; rfl
    · rw [hk]; simp only [List.cons_append, List.nil_append, gatedOk_cacheStore]
  rcases hc : c.cache with _ | m
  · simp only [makeRequestAttempt, hc]
    exact hdisp
  · simp only [makeRequestAttempt, hc]
    rcases hl : assocLookup m (dumps (.obj kw)) with _ | v
    · simp only [hl, List.cons_append, gatedOk_cacheLookup]
      exact hdisp
    · simp only [hl, List.cons_append, List.nil_append, gatedOk_cacheLookup]

/-- Every post event a dispatch emits carries the routed URL and the
injected body. -/
theorem dispatch_post_mem (c : Client) (net : String → List (String × JsonValue) → NetResult)
    (jm : Bool) (kw : List (String × JsonValue)) (url : String)
    (b : List (String × JsonValue))
    (h : Event.post url b ∈ (dispatch c net jm kw).events) :
    url = endpointUrl c kw ∧ b = requestBody c jm kw := by
  rcases hnet : net (endpointUrl c kw) (requestBody c jm kw) with ⟨status, body⟩ | _ | _ | _ <;>
    simp only [dispatch, hnet] at h
  case resp =>
    by_cases hst : 200 ≤ status ∧ status < 300
    · rcases body with e | j
      · simp only [hst, if_true] at h
        rcases c.has_gate with _ | _ <;> simp_all
      · rcases hc : c.cache with _ | m <;> simp only [hst, hc, if_true] at h <;>
          rcases c.has_gate with _ | _ <;> simp_all
    · simp only [hst, if_false] at h
      rcases c.has_gate with _ | _ <;> simp_all
  all_goals rcases c.has_gate with _ | _ <;> simp_all

/-- Every post event of one attempt carries the routed URL and body. -/
theorem attempt_post_mem (c : Client) (net : String → List (String × JsonValue) → NetResult)
    (jm : Bool) (kw : List (String × JsonValue)) (url : String)
    (b : List (String × JsonValue))
    (h : Event.post url b ∈ (makeRequestAttempt c net jm kw).events) :
    url = endpointUrl c kw ∧ b = requestBody c jm kw := by
  rcases hc : c.cache with _ | m
  · rw [makeRequestAttempt.eq_def] at h
    simp only [hc] at h
    exact dispatch_post_mem c net jm kw url b h
  · rw [makeRequestAttempt.eq_def] at h
    simp only [hc] at h
    rcases hl : assocLookup m (dumps (.obj kw)) with _ | v <;> simp only [hl] at h
    · simp only [List.mem_cons] at h
      rcases h with h | h
      · exact absurd h (by simp)
      · exact dispatch_post_mem c net jm kw url b h
    · simp at h

/-- A successful dispatch on a caching client stores the response under
the key computed from the uninjected payload. -/
theorem dispatch_ok_cache (c : Client) (net : String → List (String × JsonValue) → NetResult)
    (jm : Bool) (kw : List (String × JsonValue)) (m : List (List Char × JsonValue))
    (v : JsonValue) (hc : c.cache = some m)
    (h : (dispatch c net jm kw).result = .ok v) :
    (dispatch c net jm kw).client.cache = some (assocSet m (dumps (.obj kw)) v) := by
  rcases hnet : net (endpointUrl c kw) (requestBody c jm kw) with ⟨status, body⟩ | _ | _ | _ <;>
    simp only [dispatch, hnet] at h ⊢
  case resp =>
    by_cases hst : 200 ≤ status ∧ status < 300
    · rcases body with e | j
      · simp [hst] at h
      · simp only [hst, hc, if_true] at h ⊢
        have hv2 : j = v := by simpa using h
        subst hv2
        rfl
    · simp [hst] at h
  all_goals simp at h

/-- A successful attempt on a caching client leaves the key of the
payload bound to the returned value. -/
theorem attempt_ok_cache (c : Client) (net : String → List (String × JsonValue) → NetResult)
    (jm : Bool) (kw : List (String × JsonValue)) (m : List (List Char × JsonValue))
    (v : JsonValue) (hc : c.cache = some m)
    (h : (makeRequestAttempt c net jm kw).result = .ok v) :
    ∃ m2, (makeRequestAttempt c net jm kw).client.cache = some m2 ∧
      assocLookup m2 (dumps (.obj kw)) = some v := by
  rw [makeRequestAttempt.eq_def] at h ⊢
  simp only [hc] at h ⊢
  rcases hl : assocLookup m (dumps (.obj kw)) with _ | w <;> simp only [hl] at h ⊢
  · refine ⟨assocSet m (dumps (.obj kw)) v, ?_, assocLookup_assocSet_self _ _ _⟩
    exact dispatch_ok_cache c net jm kw m v hc h
  · simp only [Except.ok.injEq] at h
    subst h
    exact ⟨m, hc, hl⟩

/-- A cache hit returns the stored value at once, with a single lookup
event and nothing else. -/
theorem attempt_hit (c : Client) (net : String → List (String × JsonValue) → NetResult)
    (jm : Bool) (kw : List (String × JsonValue)) (m : List (List Char × JsonValue))
    (v : JsonValue) (hc : c.cache = some m)
    (hv : assocLookup m (dumps (.obj kw)) = some v) :
    makeRequestAttempt c net jm kw =
      ⟨.ok v, c, [Event.cacheLookup (dumps (.obj kw)) true]⟩ := by
  rw [makeRequestAttempt.eq_def]
  simp only [hc, hv]

theorem dumps_obj (fs : List (String × JsonValue)) :
    dumps (.obj fs) = '{' :: dumpsObj fs ++ ['}'] := by
  simp [dumps]

theorem dumps_str (s : String) : dumps (.str s) = dumpString s := by
  simp [dumps]

/-- Serialized prefix contributed by the fields before a distinguished
one. -/
def dumpsInit : List (String × JsonValue) → List Char
  | [] => []
  | x :: rest => dumpsPair x.1 x.2 ++ ',' :: dumpsInit rest

/-- Serialized suffix contributed by the fields after a distinguished
one. -/
def dumpsTail (post : List (String × JsonValue)) : List Char :=
  match post with
  | [] => []
  | _ => ',' :: dumpsObj post

theorem dumpsObj_split (pre : List (String × JsonValue)) :
    ∀ (k : String) (v : JsonValue) (post : List (String × JsonValue)),
      dumpsObj (pre ++ (k, v) :: post) =
        dumpsInit pre ++ (dumpsPair k v ++ dumpsTail post) := by
  induction pre with
  | nil =>
    intro k v post
    rcases post with _ | ⟨q, qs⟩
    · simp [dumpsObj_single, dumpsInit, dumpsTail]
    · simp only [List.nil_append, dumpsObj_cons₂, dumpsInit, dumpsTail]
  | cons x pre2 ih =>
    intro k v post
    obtain ⟨xk, xv⟩ := x
    rcases hsplit : pre2 ++ (k, v) :: post with _ | ⟨p, L⟩
    · exact absurd hsplit (by simp)
    · calc dumpsObj ((xk, xv) :: pre2 ++ (k, v) :: post)
          = dumpsObj ((xk, xv) :: p :: L) := by rw [List.cons_append, hsplit]
        _ = dumpsPair xk xv ++ ',' :: dumpsObj (p :: L) := dumpsObj_cons₂ _ _ _ _
        _ = dumpsPair xk xv ++ ',' :: dumpsObj (pre2 ++ (k, v) :: post) := by rw [hsplit]
        _ = dumpsPair xk xv ++ ',' :: (dumpsInit pre2 ++ (dumpsPair k v ++ dumpsTail post)) := by
              rw [ih]
        _ = dumpsInit ((xk, xv) :: pre2) ++ (dumpsPair k v ++ dumpsTail post) := by
              simp [dumpsInit]

/-- Distinct values at the same field position give distinct
serializations: the cache key separates payloads that differ only in a
string-valued field. -/
theorem dumps_obj_field_ne (pre post : List (String × JsonValue)) (k : String)
    (m1 m2 : String) (h : m1 ≠ m2) :
    dumps (.obj (pre ++ (k, JsonValue.str m1) :: post)) ≠
      dumps (.obj (pre ++ (k, JsonValue.str m2) :: post)) := by
  intro heq
  rw [dumps_obj, dumps_obj] at heq
  have h1 := List.cons_injective heq
  have h2 := List.append_cancel_right h1
  rw [dumpsObj_split, dumpsObj_split] at h2
  have h3 := List.append_cancel_left h2
  have h4 := List.append_cancel_right h3
  have h5 : dumpString k ++ ':' :: dumps (.str m1) = dumpString k ++ ':' :: dumps (.str m2) := h4
  have h6 := List.cons_injective (List.append_cancel_left h5)
  rw [dumps_str, dumps_str] at h6
  exact h (dumpString_injective _ _ h6)

/-- Classifier verdict on a well-formed parsed body, all statuses. -/
theorem is_api_error_status_wf (status : Nat) (fields : List (String × JsonValue))
    (hwf : bodyWellFormed fields) :
    is_api_error (.httpStatus status (.ok (.obj fields))) =
      .ok (if status = 400 ∨ status = 404 ∨ status = 415
           then isIdempotencyType (errorTypeOf fields) else true) := by
  by_cases hc : status = 400 ∨ status = 404 ∨ status = 415 <;>
    rcases hwf with h0 | ⟨ef, hef⟩
  · simp [is_api_error, h0, errorTypeOf, assocLookup, isIdempotencyType, hc]
  · simp [is_api_error, hef, errorTypeOf, hc]
  · simp [is_api_error, h0, errorTypeOf, assocLookup, isIdempotencyType, hc]
  · simp [is_api_error, hef, errorTypeOf, hc]

/-- C1: the error classifier, applied to any failure whose parsed body is
well formed, returns the verdict of the rule table: for status 400, 404
or 415 it is retryable exactly when `error.type` is the string
`idempotency_error`; any other status, any transport failure, and any
other exception is retryable. -/
theorem c1_classifier_rule_table :
    (∀ (status : Nat) (fields : List (String × JsonValue)), bodyWellFormed fields →
      is_api_error (.httpStatus status (.ok (.obj fields))) =
        .ok (if status = 400 ∨ status = 404 ∨ status = 415
             then isIdempotencyType (errorTypeOf fields) else true))
    ∧ is_api_error .connectError = .ok true
    ∧ is_api_error .timeout = .ok true
    ∧ is_api_error .readError = .ok true
    ∧ is_api_error .jsonDecodeError = .ok true
    ∧ is_api_error .attrError = .ok true
    ∧ (∀ msg, is_api_error (.otherError msg) = .ok true)
    ∧ (∀ o, isIdempotencyType o = true ↔ o = some (JsonValue.str "idempotency_error")) := by
  refine ⟨is_api_error_status_wf, rfl, rfl, rfl, rfl, rfl, fun _ => rfl, ?_⟩
  intro o
  rcases o with _ | v
  · simp [isIdempotencyType]
  · rcases v with s | n | b | _ | xs | fs <;> simp [isIdempotencyType]

/-- C1 witness: status 400 with the idempotency marker is retryable, and
the same status with another error type is not. -/
theorem c1_classifier_rule_table_witness :
    is_api_error (.httpStatus 400 (.ok (.obj
        [("error", .obj [("type", .str "idempotency_error")])]))) = .ok true ∧
    is_api_error (.httpStatus 400 (.ok (.obj
        [("error", .obj [("type", .str "server_error")])]))) = .ok false := by
  have h1 := c1_classifier_rule_table.1 400
    [("error", .obj [("type", .str "idempotency_error")])] (Or.inr ⟨_, rfl⟩)
  have h2 := c1_classifier_rule_table.1 400
    [("error", .obj [("type", .str "server_error")])] (Or.inr ⟨_, rfl⟩)
  refine ⟨?_, ?_⟩
  · rw [h1]; rfl
  · rw [h2]; rfl

/-- C2: when every attempt fails with an error the classifier calls
retryable, the loop invokes the operation exactly 200 times and then
re-raises the error of the last attempt itself, in the same error type,
with no wrapper. -/
theorem c2_exhaustion {ε α : Type} (f : Nat → Except ε α × List Event)
    (cls : ε → Except ε Bool) (u : Nat → ℚ) (e : Nat → ε)
    (hf : ∀ j, (f j).1 = .error (e j)) (hcls : ∀ j, cls (e j) = .ok true) :
    (retryLoop f cls u).calls = 200 ∧
    (retryLoop f cls u).result = some (.error (e 199)) := by
  obtain ⟨hr, hc, _⟩ := retryFrom_allFail f cls u e hf hcls max_tries 0 init_delay_s
    (by norm_num [max_tries]) (by norm_num [max_tries])
  rw [retryLoop]
  exact ⟨hc, hr⟩

/-- C2 witness: a run where every attempt raises a connection error makes
exactly 200 calls and ends by raising that connection error. -/
theorem c2_exhaustion_witness :
    (retryLoop (fun _ => ((Except.error PyErr.connectError : Except PyErr JsonValue), ([] : List Event)))
      is_api_error (fun _ => 0)).calls = 200 ∧
    (retryLoop (fun _ => ((Except.error PyErr.connectError : Except PyErr JsonValue), ([] : List Event)))
      is_api_error (fun _ => 0)).result = some (Except.error PyErr.connectError) := by
  have h := c2_exhaustion (fun _ => ((Except.error PyErr.connectError : Except PyErr JsonValue), ([] : List Event)))
    is_api_error (fun _ => 0) (fun _ => PyErr.connectError) (fun _ => rfl) (fun _ => rfl)
  exact h

/-- C7: a first attempt failing with status 400 whose well-formed body
does not carry the idempotency marker terminates the loop at once: one
call, no sleep, and the original `HTTPStatusError` is surfaced
unchanged. -/
theorem c7_fatal_short_circuit {α : Type} (f : Nat → Except PyErr α × List Event)
    (u : Nat → ℚ) (fields : List (String × JsonValue))
    (hwf : bodyWellFormed fields)
    (hty : isIdempotencyType (errorTypeOf fields) = false)
    (hf : (f 0).1 = .error (.httpStatus 400 (.ok (.obj fields)))) :
    retryLoop f is_api_error u =
      ⟨some (.error (.httpStatus 400 (.ok (.obj fields)))), 1, [], (f 0).2⟩ := by
  have hcl : is_api_error (.httpStatus 400 (.ok (.obj fields))) = .ok false := by
    rw [is_api_error_status_wf 400 fields hwf]
    simp [hty]
  rw [retryLoop, show max_tries = 199 + 1 from rfl, retryFrom_succ, hf]
  simp only [hcl]
  rfl

/-- C7 witness: a 400 response with `error.type = "server_error"` fails
after exactly one attempt with the original error. -/
theorem c7_fatal_short_circuit_witness :
    retryLoop (fun _ => ((Except.error (PyErr.httpStatus 400 (.ok (.obj
        [("error", JsonValue.obj [("type", JsonValue.str "server_error")])]))) :
          Except PyErr JsonValue),
        ([] : List Event)))
      is_api_error (fun _ => 0) =
      ⟨some (Except.error (PyErr.httpStatus 400 (.ok (.obj
        [("error", JsonValue.obj [("type", JsonValue.str "server_error")])])))),
        1, [], []⟩ := by
  have h := c7_fatal_short_circuit
    (fun _ => ((Except.error (PyErr.httpStatus 400 (.ok (.obj
        [("error", JsonValue.obj [("type", JsonValue.str "server_error")])]))) :
          Except PyErr JsonValue),
        ([] : List Event)))
    (fun _ => 0)
    [("error", JsonValue.obj [("type", JsonValue.str "server_error")])]
    (Or.inr ⟨_, rfl⟩) rfl rfl
  exact h

/-- C9: when an HTTP error response carries a body that is not valid
JSON, the classifier itself raises the parse error while inspecting the
response, so the loop stops at that attempt with one call and no sleep,
and the caller receives the parse error instead of the original HTTP
status failure. -/
theorem c9_unparseable_body_raises {α : Type} (f : Nat → Except PyErr α × List Event)
    (u : Nat → ℚ) (status fuel i : Nat) (d : ℚ)
    (hf : (f i).1 = .error (.httpStatus status (.error ()))) :
    is_api_error (.httpStatus status (.error ())) = .error .jsonDecodeError ∧
    retryFrom f is_api_error u (fuel + 1) i d =
      ⟨some (.error .jsonDecodeError), 1, [], (f i).2⟩ := by
  refine ⟨rfl, ?_⟩
  rw [retryFrom_succ, hf]
  rfl

/-- C9 witness: at the first attempt of a full loop, a 500 response with
an unparseable body surfaces the JSON decode error after one call. -/
theorem c9_unparseable_body_raises_witness :
    is_api_error (.httpStatus 500 (.error ())) = .error .jsonDecodeError ∧
    retryFrom (fun _ => ((Except.error (PyErr.httpStatus 500 (.error ())) :
        Except PyErr JsonValue), ([] : List Event)))
      is_api_error (fun _ => 0) 200 0 1 =
      ⟨some (Except.error PyErr.jsonDecodeError), 1, [], []⟩ := by
  have h := c9_unparseable_body_raises
    (fun _ => ((Except.error (PyErr.httpStatus 500 (.error ())) :
        Except PyErr JsonValue), ([] : List Event)))
    (fun _ => 0) 500 199 0 1 rfl
  exact h

/-- A list of sleep durations that never decreases. -/
def nondecreasing (l : List ℚ) : Prop :=
  ∀ i j x y, i ≤ j → l.get? i = some x → l.get? j = some y → x ≤ y

/-- C3 (amended): under a persistently transient failure, the k-th sleep
is exactly `uniform(d_k * 0.8, d_k * 1.2)` for the base delay
`d_k = min(1.0 * 2 ^ k, 10.0)` (the delay doubling and capping at 10);
hence every sleep lies within plus or minus 20 percent of `d_k`, and the
base delays are non-decreasing.  The realized sleeps themselves need not
be non-decreasing once consecutive jitter bands overlap (see the
counterexample). -/
theorem c3_backoff_shape {ε α : Type} (f : Nat → Except ε α × List Event)
    (cls : ε → Except ε Bool) (u : Nat → ℚ) (e : Nat → ε)
    (hf : ∀ j, (f j).1 = .error (e j)) (hcls : ∀ j, cls (e j) = .ok true)
    (hu : ∀ k, 0 ≤ u k ∧ u k ≤ 1) :
    (retryLoop f cls u).sleeps =
      (List.range (max_tries - 1)).map (fun k =>
        pyUniform (delaySeq init_delay_s k * (1 - jitter))
          (delaySeq init_delay_s k * (1 + jitter)) (u k)) ∧
    (∀ k s, (retryLoop f cls u).sleeps.get? k = some s →
      (1 - jitter) * min ((2 : ℚ) ^ k) 10 ≤ s ∧
        s ≤ (1 + jitter) * min ((2 : ℚ) ^ k) 10) ∧
    Monotone (fun k : Nat => min ((2 : ℚ) ^ k) 10) := by
  obtain ⟨_, _, hs⟩ := retryFrom_allFail f cls u e hf hcls max_tries 0 init_delay_s
    (by norm_num [max_tries]) (by norm_num [max_tries])
  have hmain : (retryLoop f cls u).sleeps =
      (List.range (max_tries - 1)).map (fun k =>
        pyUniform (delaySeq init_delay_s k * (1 - jitter))
          (delaySeq init_delay_s k * (1 + jitter)) (u k)) := by
    rw [retryLoop, hs]
    apply List.map_congr_left
    intro k _
    simp [jsleep]
  refine ⟨hmain, ?_, ?_⟩
  · intro k s hks
    rw [hmain] at hks
    rw [List.get?_map] at hks
    rcases hk : (List.range (max_tries - 1)).get? k with _ | k2
    · rw [hk] at hks; simp at hks
    · rw [hk] at hks
      have hk2 : k = k2 := by
        rcases Nat.lt_or_ge k (max_tries - 1) with hlt | hge
        · rw [List.get?_range hlt] at hk
          simpa using hk
        · rw [List.get?_eq_none.mpr (by simpa using hge)] at hk
          exact absurd hk (by simp)
      subst hk2
      have hks2 : pyUniform (delaySeq init_delay_s k * (1 - jitter))
          (delaySeq init_delay_s k * (1 + jitter)) (u k) = s := by simpa using hks
      subst hks2
      have hd : delaySeq init_delay_s k = min ((2 : ℚ) ^ k) 10 := delaySeq_one k
      have hdpos : 0 ≤ delaySeq init_delay_s k := by
        rw [hd]
        have : (0 : ℚ) ≤ (2 : ℚ) ^ k := by positivity
        simp [le_min_iff, this]
      obtain ⟨hu0, hu1⟩ := hu k
      rw [pyUniform, ← hd]
      constructor
      · rw [jitter] at *
        nlinarith [hdpos, hu0, hu1]
      · rw [jitter] at *
        nlinarith [hdpos, hu0, hu1]
  · intro a b hab
    simp only
    exact min_le_min (pow_le_pow_right (by norm_num) hab) le_rfl

/-- C3 witness: with every jitter draw at the lower end, the sleeps of a
persistently failing run are exactly the mapped uniform draws. -/
theorem c3_backoff_shape_witness :
    (retryLoop (fun _ => ((Except.error PyErr.connectError : Except PyErr JsonValue),
        ([] : List Event))) is_api_error (fun _ => 0)).sleeps =
      (List.range 199).map (fun k =>
        pyUniform (delaySeq 1 k * (1 - jitter)) (delaySeq 1 k * (1 + jitter)) 0) := by
  have h := (c3_backoff_shape
    (fun _ => ((Except.error PyErr.connectError : Except PyErr JsonValue), ([] : List Event)))
    is_api_error (fun _ => 0) (fun _ => PyErr.connectError) (fun _ => rfl) (fun _ => rfl)
    (fun _ => by norm_num)).1
  simpa [max_tries, init_delay_s] using h

/-- The jitter draws that expose the decrease: the draw after the third
failure is at the top of its band, the next one at the bottom. -/
def badJitterOracle : Nat → ℚ := fun k => if k = 3 then 1 else 0

/-- C3 counterexample: the realized sleeps are not non-decreasing.  With
a persistently failing operation and jitter draws inside `[0, 1]`, the
sleep after attempt 3 is `9.6` (top of the band around delay 8) and the
sleep after attempt 4 is `8` (bottom of the band around the capped delay
10), so a later sleep is smaller than an earlier one. -/
theorem c3_counterexample :
    ¬ nondecreasing ((retryLoop
      (fun _ => ((Except.error PyErr.connectError : Except PyErr JsonValue),
        ([] : List Event))) is_api_error badJitterOracle).sleeps) := by
  obtain ⟨_, _, hs⟩ := retryFrom_allFail
    (fun _ => ((Except.error PyErr.connectError : Except PyErr JsonValue), ([] : List Event)))
    is_api_error badJitterOracle (fun _ => PyErr.connectError) (fun _ => rfl) (fun _ => rfl)
    max_tries 0 init_delay_s (by norm_num [max_tries]) (by norm_num [max_tries])
  intro hnd
  have hd3 : delaySeq init_delay_s 3 = 8 := by
    rw [delaySeq_one, min_eq_left (by norm_num : (2 : ℚ) ^ 3 ≤ 10)]
    norm_num
  have hd4 : delaySeq init_delay_s 4 = 10 := by
    rw [delaySeq_one, min_eq_right (by norm_num : (10 : ℚ) ≤ 2 ^ 4)]
  have h3 : (List.map (jsleep init_delay_s badJitterOracle 0)
      (List.range (max_tries - 1))).get? 3 = some (48 / 5 : ℚ) := by
    rw [List.get?_map, List.get?_range (by norm_num [max_tries])]
    norm_num [jsleep, hd3, pyUniform, badJitterOracle, jitter]
  have h4 : (List.map (jsleep init_delay_s badJitterOracle 0)
      (List.range (max_tries - 1))).get? 4 = some (8 : ℚ) := by
    rw [List.get?_map, List.get?_range (by norm_num [max_tries])]
    norm_num [jsleep, hd4, pyUniform, badJitterOracle, jitter]
  have hget3 : ((retryLoop
      (fun _ => ((Except.error PyErr.connectError : Except PyErr JsonValue),
        ([] : List Event))) is_api_error badJitterOracle).sleeps).get? 3 =
      some (48 / 5 : ℚ) := by
    rw [retryLoop, hs]; exact h3
  have hget4 : ((retryLoop
      (fun _ => ((Except.error PyErr.connectError : Except PyErr JsonValue),
        ([] : List Event))) is_api_error badJitterOracle).sleeps).get? 4 =
      some (8 : ℚ) := by
    rw [retryLoop, hs]; exact h4
  have hcontra := hnd 3 4 (48 / 5 : ℚ) (8 : ℚ) (by norm_num) hget3 hget4
  norm_num at hcontra

theorem assocLookup_assocSet_ne {κ α : Type} [DecidableEq κ]
    (m : List (κ × α)) (key k : κ) (val : α) (h : ¬k = key) :
    assocLookup (assocSet m key val) k = assocLookup m k := by
  have hkey : ¬key = k := fun hkk => h hkk.symm
  induction m with
  | nil => simp [assocSet, assocLookup, hkey]
  | cons p rest ih =>
    obtain ⟨k0, v0⟩ := p
    by_cases hk : k0 = key
    · subst hk
      simp [assocSet, assocLookup, hkey]
    · simp [assocSet, assocLookup, hk, ih]

theorem assocLookup_append_notin {κ α : Type} [DecidableEq κ]
    (pre post : List (κ × α)) (key : κ) (val : α)
    (h : hasKey pre key = false) :
    assocLookup (pre ++ (key, val) :: post) key = some val := by
  induction pre with
  | nil => simp [assocLookup]
  | cons p rest ih =>
    obtain ⟨k0, v0⟩ := p
    simp only [hasKey, assocLookup] at h
    by_cases hk : k0 = key
    · simp [hk] at h
    · simp only [List.cons_append, assocLookup, hk, if_false]
      exact ih (by simpa [hasKey, hk] using h)

/-- With caching enabled, the first event of every attempt is the cache
lookup under the key serialized from the payload as supplied. -/
theorem attempt_first_event (c : Client)
    (net : String → List (String × JsonValue) → NetResult) (jm : Bool)
    (kw : List (String × JsonValue)) (m : List (List Char × JsonValue))
    (hc : c.cache = some m) :
    ∃ hit, (makeRequestAttempt c net jm kw).events.take 1 =
      [Event.cacheLookup (dumps (.obj kw)) hit] := by
  rw [makeRequestAttempt.eq_def]
  simp only [hc]
  rcases hl : assocLookup m (dumps (.obj kw)) with _ | v <;> simp [hl]

/-- The whole trace of a retried run is well shaped whenever each
attempt contributes a well-shaped chunk. -/
theorem retryFrom_gatedOk {ε α : Type} (f : Nat → Except ε α × List Event)
    (cls : ε → Except ε Bool) (u : Nat → ℚ)
    (hf : ∀ j rest, gatedOk ((f j).2 ++ rest) = gatedOk rest) :
    ∀ fuel i d, gatedOk (retryFrom f cls u fuel i d).events = true := by
  intro fuel
  induction fuel with
  | zero => intro i d; rfl
  | succ fuel' ih =>
    intro i d
    rw [retryFrom_succ]
    have hterm : gatedOk (f i).2 = true := by
      have := hf i []
      rwa [List.append_nil] at this
    cases hfi : (f i).1 with
    | ok v =>
      simp only [hfi]
      simpa using hterm
    | error err =>
      cases hcls : cls err with
      | error err2 =>
        simp only [hfi, hcls]
        simpa using hterm
      | ok b =>
        simp only [hfi, hcls]
        by_cases hcond : (!b || (i == max_tries - 1)) = true
        · rw [if_pos hcond]
          simpa using hterm
        · rw [if_neg hcond]
          rw [hf i, gatedOk_sleep]
          exact ih _ _

theorem dumps_num (n : Int) : dumps (.num n) = (toString n).data := by
  simp [dumps]

/-- C4 (amended): the cache key is `orjson.dumps` of the payload as
supplied by the caller, before the model name or the JSON-mode field is
injected, so it is identical across clients with different model names
and different JSON-mode settings; payloads listing the same fields in
the same order share a key, but the serialization preserves insertion
order, so a different supply order gives a different key. -/
theorem c4_cache_key_from_payload (c1 c2 : Client)
    (net1 net2 : String → List (String × JsonValue) → NetResult)
    (jm1 jm2 : Bool) (kw : List (String × JsonValue))
    (m1 m2 : List (List Char × JsonValue))
    (hc1 : c1.cache = some m1) (hc2 : c2.cache = some m2) :
    ∃ hit1 hit2, (makeRequestAttempt c1 net1 jm1 kw).events.take 1 =
        [Event.cacheLookup (dumps (.obj kw)) hit1] ∧
      (makeRequestAttempt c2 net2 jm2 kw).events.take 1 =
        [Event.cacheLookup (dumps (.obj kw)) hit2] := by
  obtain ⟨hit1, h1⟩ := attempt_first_event c1 net1 jm1 kw m1 hc1
  obtain ⟨hit2, h2⟩ := attempt_first_event c2 net2 jm2 kw m2 hc2
  exact ⟨hit1, hit2, h1, h2⟩

/-- C4 counterexample: two payloads with identical field/value pairs
supplied in different orders are a permutation of one another yet
serialize to different cache keys, because the serialization preserves
insertion order rather than being canonical. -/
theorem c4_counterexample :
    List.Perm [("a", JsonValue.num 1), ("b", JsonValue.num 2)]
      [("b", JsonValue.num 2), ("a", JsonValue.num 1)] ∧
    dumps (.obj [("a", JsonValue.num 1), ("b", JsonValue.num 2)]) ≠
      dumps (.obj [("b", JsonValue.num 2), ("a", JsonValue.num 1)]) := by
  constructor
  · exact List.Perm.swap _ _ _
  · intro h
    rw [dumps_obj, dumps_obj] at h
    simp only [dumpsObj_cons₂, dumpsObj_single, dumpsPair, dumps_num, dumpString] at h
    exact absurd h (by decide)

/-- C4 witness: two caching clients with different model names and
different JSON-mode flags compute the same key for the same payload. -/
theorem c4_cache_key_from_payload_witness :
    ∃ hit1 hit2,
      (makeRequestAttempt ⟨"gpt-a", false, some [], "https://api.test/v1"⟩
        (fun _ _ => NetResult.resp 200 (.ok .null)) false
        [("prompt", JsonValue.str "hello")]).events.take 1 =
        [Event.cacheLookup (dumps (.obj [("prompt", JsonValue.str "hello")])) hit1] ∧
      (makeRequestAttempt ⟨"gpt-b", false, some [], "https://api.test/v1"⟩
        (fun _ _ => NetResult.resp 200 (.ok .null)) true
        [("prompt", JsonValue.str "hello")]).events.take 1 =
        [Event.cacheLookup (dumps (.obj [("prompt", JsonValue.str "hello")])) hit2] := by
  exact c4_cache_key_from_payload
    ⟨"gpt-a", false, some [], "https://api.test/v1"⟩
    ⟨"gpt-b", false, some [], "https://api.test/v1"⟩
    (fun _ _ => NetResult.resp 200 (.ok .null)) (fun _ _ => NetResult.resp 200 (.ok .null))
    false true [("prompt", JsonValue.str "hello")] [] [] rfl rfl

/-- C10: a caller-supplied `model` field is part of the cache key but is
silently overwritten with the configured model name before dispatch: two
payloads that differ only in the caller-supplied model value produce the
same request body for the remote, the dispatched body carries the
configured model name, and the two cache keys are distinct. -/
theorem c10_caller_model_overwritten (c : Client) (jm : Bool)
    (pre post : List (String × JsonValue)) (m1 m2 : String)
    (hpre : hasKey pre "model" = false) (hne : m1 ≠ m2) :
    requestBody c jm (pre ++ ("model", JsonValue.str m1) :: post) =
      requestBody c jm (pre ++ ("model", JsonValue.str m2) :: post) ∧
    assocLookup (requestBody c jm (pre ++ ("model", JsonValue.str m1) :: post)) "model" =
      some (JsonValue.str c.model_name) ∧
    dumps (.obj (pre ++ ("model", JsonValue.str m1) :: post)) ≠
      dumps (.obj (pre ++ ("model", JsonValue.str m2) :: post)) := by
  have hset : ∀ s : String,
      assocSet (pre ++ ("model", JsonValue.str s) :: post) "model"
        (JsonValue.str c.model_name) =
        pre ++ ("model", JsonValue.str c.model_name) :: post :=
    fun s => assocSet_append_notin pre post "model" (JsonValue.str s)
      (JsonValue.str c.model_name) hpre
  refine ⟨?_, ?_, dumps_obj_field_ne pre post "model" m1 m2 hne⟩
  · rw [requestBody, requestBody, hset m1, hset m2]
  · rw [requestBody, hset m1]
    have hlk : assocLookup (pre ++ ("model", JsonValue.str c.model_name) :: post) "model" =
        some (JsonValue.str c.model_name) :=
      assocLookup_append_notin pre post "model" _ hpre
    rcases jm with _ | _
    · simpa using hlk
    · simp only [if_true]
      rw [assocLookup_assocSet_ne _ _ _ _ (by decide)]
      exact hlk

/-- C10 witness: with a client configured for model `gpt-test`, payloads
differing only in a caller-supplied model value dispatch identical
bodies carrying `gpt-test` yet have different cache keys. -/
theorem c10_caller_model_overwritten_witness :
    requestBody ⟨"gpt-test", false, some [], "https://api.test/v1"⟩ false
        ([("prompt", JsonValue.str "p")] ++ ("model", JsonValue.str "gpt-a") :: []) =
      requestBody ⟨"gpt-test", false, some [], "https://api.test/v1"⟩ false
        ([("prompt", JsonValue.str "p")] ++ ("model", JsonValue.str "gpt-b") :: []) ∧
    assocLookup (requestBody ⟨"gpt-test", false, some [], "https://api.test/v1"⟩ false
        ([("prompt", JsonValue.str "p")] ++ ("model", JsonValue.str "gpt-a") :: []))
        "model" = some (JsonValue.str "gpt-test") ∧
    dumps (.obj ([("prompt", JsonValue.str "p")] ++ ("model", JsonValue.str "gpt-a") :: [])) ≠
      dumps (.obj ([("prompt", JsonValue.str "p")] ++ ("model", JsonValue.str "gpt-b") :: [])) := by
  exact c10_caller_model_overwritten ⟨"gpt-test", false, some [], "https://api.test/v1"⟩
    false [("prompt", JsonValue.str "p")] [] "gpt-a" "gpt-b" rfl (by decide)

/-- C5: after one successful `make_request` with payload `kw` on a
caching client, a second `make_request` with the same payload (any
network behaviour, any jitter, any JSON-mode flag) returns the cached
value: its whole trace is one cache lookup hit, so there is no gate
acquisition, no post, no sleep, and the wrapped body runs once. -/
theorem c5_cache_hit_no_dispatch (c : Client)
    (net net2 : Nat → String → List (String × JsonValue) → NetResult)
    (u u2 : Nat → ℚ) (jm jm2 : Bool) (kw : List (String × JsonValue))
    (m : List (List Char × JsonValue)) (v : JsonValue) (c1 : Client)
    (hc : c.cache = some m)
    (h1 : (makeRequest c net u jm kw).result = some (.ok (v, c1))) :
    makeRequest c1 net2 u2 jm2 kw =
      ⟨some (.ok (v, c1)), 1, [], [Event.cacheLookup (dumps (.obj kw)) true]⟩ := by
  rw [makeRequest, retryLoop] at h1
  obtain ⟨j, hj⟩ := retryFrom_ok_source _ is_api_error u (v, c1)
    max_tries 0 init_delay_s h1
  have hj2 : (match (makeRequestAttempt c (net j) jm kw).result with
      | .ok w => Except.ok (w, (makeRequestAttempt c (net j) jm kw).client)
      | .error err => (Except.error err : Except PyErr (JsonValue × Client))) =
      Except.ok (v, c1) := hj
  rcases ha : (makeRequestAttempt c (net j) jm kw).result with e | w
  · rw [ha] at hj2
    simp at hj2
  · rw [ha] at hj2
    simp only [Except.ok.injEq, Prod.mk.injEq] at hj2
    obtain ⟨hwv, hcl⟩ := hj2
    have ha2 : (makeRequestAttempt c (net j) jm kw).result = Except.ok v := by
      rw [ha, hwv]
    obtain ⟨m2, hm2, hlk⟩ := attempt_ok_cache c (net j) jm kw m v hc ha2
    rw [hcl] at hm2
    have hhit := attempt_hit c1 (net2 0) jm2 kw m2 v hm2 hlk
    rw [makeRequest]
    have hfirst : ((fun i =>
        let a := makeRequestAttempt c1 (net2 i) jm2 kw
        (match a.result with
         | .ok w => Except.ok (w, a.client)
         | .error err => (Except.error err : Except PyErr (JsonValue × Client)), a.events)) 0).1 =
        Except.ok (v, c1) := by
      simp only [hhit]
    rw [retryLoop_first_ok _ is_api_error u2 (v, c1) hfirst]
    have hev : ((fun i =>
        let a := makeRequestAttempt c1 (net2 i) jm2 kw
        (match a.result with
         | .ok w => Except.ok (w, a.client)
         | .error err => (Except.error err : Except PyErr (JsonValue × Client)), a.events)) 0).2 =
        [Event.cacheLookup (dumps (.obj kw)) true] := by
      simp only [hhit]
    rw [hev]

/-- C6: with a bounded concurrency gate, the full trace of a call is a
sequence of cache and sleep events and complete acquire, post, release
triples: a slot is acquired immediately before each single network post
and released as soon as that post returns, never held across a backoff
sleep. -/
theorem c6_gate_per_attempt (c : Client)
    (net : Nat → String → List (String × JsonValue) → NetResult)
    (u : Nat → ℚ) (jm : Bool) (kw : List (String × JsonValue))
    (hg : c.has_gate = true) :
    gatedOk (makeRequest c net u jm kw).events = true := by
  rw [makeRequest, retryLoop]
  apply retryFrom_gatedOk
  intro j rest
  exact gatedOk_append_attempt c (net j) jm kw rest hg

/-- C5 and C6 test fixture: a gate-free caching client. -/
def cachingClient : Client := ⟨"gpt-test", false, some [], "https://api.test/v1"⟩

/-- Test fixture: a gated client without cache. -/
def gatedClient : Client := ⟨"gpt-test", true, none, "https://api.test/v1"⟩

/-- Test fixture: a network that always answers 200 with body null. -/
def netOk : Nat → String → List (String × JsonValue) → NetResult :=
  fun _ _ _ => .resp 200 (.ok .null)

/-- C5 witness: a concrete first call on a caching client succeeds, and
the second call with the same payload is answered from the cache with a
single lookup event. -/
theorem c5_cache_hit_no_dispatch_witness :
    makeRequest
        ⟨"gpt-test", false,
          some [(dumps (.obj [("prompt", JsonValue.str "hello")]), JsonValue.null)],
          "https://api.test/v1"⟩
        netOk (fun _ => 0) false [("prompt", JsonValue.str "hello")] =
      ⟨some (.ok (JsonValue.null,
        ⟨"gpt-test", false,
          some [(dumps (.obj [("prompt", JsonValue.str "hello")]), JsonValue.null)],
          "https://api.test/v1"⟩)), 1, [],
        [Event.cacheLookup (dumps (.obj [("prompt", JsonValue.str "hello")])) true]⟩ := by
  have h1 : (makeRequest cachingClient netOk (fun _ => 0) false
      [("prompt", JsonValue.str "hello")]).result =
      some (.ok (JsonValue.null,
        ⟨"gpt-test", false,
          some [(dumps (.obj [("prompt", JsonValue.str "hello")]), JsonValue.null)],
          "https://api.test/v1"⟩)) := by
    rw [makeRequest, retryLoop_first_ok _ is_api_error (fun _ => 0)
      (JsonValue.null,
        ⟨"gpt-test", false,
          some [(dumps (.obj [("prompt", JsonValue.str "hello")]), JsonValue.null)],
          "https://api.test/v1"⟩) ?hfirst]
    case hfirst =>
      have hmiss : assocLookup ([] : List (List Char × JsonValue))
          (dumps (.obj [("prompt", JsonValue.str "hello")])) = none := rfl
      simp only [makeRequestAttempt, cachingClient, hmiss, dispatch, netOk]
      rfl
  exact c5_cache_hit_no_dispatch cachingClient netOk netOk (fun _ => 0) (fun _ => 0)
    false false [("prompt", JsonValue.str "hello")] [] JsonValue.null _ rfl h1

/-- C6 witness: a concrete gated run has a well-shaped trace. -/
theorem c6_gate_per_attempt_witness :
    gatedOk (makeRequest gatedClient netOk (fun _ => 0) false
      [("prompt", JsonValue.str "hello")]).events = true :=
  c6_gate_per_attempt gatedClient netOk (fun _ => 0) false
    [("prompt", JsonValue.str "hello")] rfl

/-- C8: every post event of a call goes to the base URL plus
`/chat/completions` exactly when the payload has a `messages` field, and
to the base URL plus `/completions` otherwise; the posted body is the
payload with the model (and JSON-mode field) injected. -/
theorem c8_endpoint_routing (c : Client)
    (net : Nat → String → List (String × JsonValue) → NetResult)
    (u : Nat → ℚ) (jm : Bool) (kw : List (String × JsonValue))
    (url : String) (b : List (String × JsonValue))
    (h : Event.post url b ∈ (makeRequest c net u jm kw).events) :
    url = c.base_api_url ++
      (if hasKey kw "messages" then "/chat/completions" else "/completions") ∧
    (url = c.base_api_url ++ "/chat/completions" ↔ hasKey kw "messages" = true) ∧
    b = requestBody c jm kw := by
  rw [makeRequest, retryLoop] at h
  rcases retryFrom_event_source _ is_api_error u (Event.post url b)
      max_tries 0 init_delay_s h with ⟨j, hj⟩ | ⟨t, ht⟩
  · have hj2 : Event.post url b ∈ (makeRequestAttempt c (net j) jm kw).events := hj
    obtain ⟨hurl, hbody⟩ := attempt_post_mem c (net j) jm kw url b hj2
    rw [endpointUrl] at hurl
    refine ⟨hurl, ?_, hbody⟩
    constructor
    · intro hchat
      by_contra hk
      have hk2 : hasKey kw "messages" = false := by
        rcases hhk : hasKey kw "messages" with _ | _
        · rfl
        · exact absurd hhk hk
      rw [hk2] at hurl
      simp only [Bool.false_eq_true, if_false] at hurl
      rw [hurl] at hchat
      have hdata := congrArg String.data hchat
      rw [String.data_append, String.data_append] at hdata
      have := List.append_cancel_left hdata
      exact absurd this (by decide)
    · intro hk
      rw [hurl, hk]
      simp
  · exact absurd ht (by simp)

/-- C8 witness: a payload with only a `prompt` field posts to the
completions endpoint of the base URL. -/
theorem c8_endpoint_routing_witness :
    "https://api.test/v1/completions" = "https://api.test/v1" ++
      (if hasKey [("prompt", JsonValue.str "hello")] "messages"
       then "/chat/completions" else "/completions") ∧
    ("https://api.test/v1/completions" = "https://api.test/v1" ++ "/chat/completions" ↔
      hasKey [("prompt", JsonValue.str "hello")] "messages" = true) ∧
    [("prompt", JsonValue.str "hello"), ("model", JsonValue.str "gpt-test")] =
      requestBody ⟨"gpt-test", false, none, "https://api.test/v1"⟩ false
        [("prompt", JsonValue.str "hello")] := by
  have hmem : Event.post "https://api.test/v1/completions"
      [("prompt", JsonValue.str "hello"), ("model", JsonValue.str "gpt-test")] ∈
      (makeRequest ⟨"gpt-test", false, none, "https://api.test/v1"⟩ netOk (fun _ => 0)
        false [("prompt", JsonValue.str "hello")]).events := by
    rw [makeRequest, retryLoop_first_ok _ is_api_error (fun _ => 0)
      (JsonValue.null, ⟨"gpt-test", false, none, "https://api.test/v1"⟩) rfl]
    exact List.mem_singleton.mpr rfl
  exact c8_endpoint_routing ⟨"gpt-test", false, none, "https://api.test/v1"⟩ netOk
    (fun _ => 0) false [("prompt", JsonValue.str "hello")]
    "https://api.test/v1/completions"
    [("prompt", JsonValue.str "hello"), ("model", JsonValue.str "gpt-test")] hmem
